import Mathlib

/-!
Verification of the webforms rule model: the validation code generated by the
ValidateForm derive (webforms_derive/src/validate.rs and
webforms_derive/src/validate/validators.rs), the runtime error type
(webforms/src/validate.rs), and the HTML attribute-set model
(webforms/src/html/html_attribute.rs, html_field.rs, html_form_builder.rs).
Each definition is a shallow embedding of the named source item.
-/

namespace Webforms

/-! ### Regular expressions

The generated validators call `Regex::is_match` on patterns compiled from the
registry.  We embed the matching semantics of an anchored pattern with a
Brzozowski-derivative matcher over character classes, concatenation,
alternation and star: enough to denote the canonical email pattern
`^[a-zA-Z0-9_.+-]+@[a-zA-Z0-9-]+\.[a-zA-Z0-9-.]+$` literally. -/

inductive RE where
  | emp : RE
  | eps : RE
  | cls : (Char → Bool) → RE
  | cat : RE → RE → RE
  | alt : RE → RE → RE
  | star : RE → RE

def RE.nullable : RE → Bool
  | .emp => false
  | .eps => true
  | .cls _ => false
  | .cat a b => a.nullable && b.nullable
  | .alt a b => a.nullable || b.nullable
  | .star _ => true

/-- Smart concatenation, keeping derivatives small. -/
def RE.mkCat : RE → RE → RE
  | .emp, _ => .emp
  | _, .emp => .emp
  | .eps, b => b
  | a, .eps => a
  | a, b => .cat a b

/-- Smart alternation, keeping derivatives small. -/
def RE.mkAlt : RE → RE → RE
  | .emp, b => b
  | a, .emp => a
  | a, b => .alt a b

def RE.deriv : RE → Char → RE
  | .emp, _ => .emp
  | .eps, _ => .emp
  | .cls p, c => if p c then .eps else .emp
  | .cat a b, c =>
      if a.nullable then .mkAlt (.mkCat (a.deriv c) b) (b.deriv c)
      else .mkCat (a.deriv c) b
  | .alt a b, c => .mkAlt (a.deriv c) (b.deriv c)
  | .star a, c => .mkCat (a.deriv c) (.star a)

def RE.matchList : RE → List Char → Bool
  | r, [] => r.nullable
  | r, c :: cs => (r.deriv c).matchList cs

/-- Anchored full match of `s`, as the `^...$` patterns of the crate demand. -/
def RE.isMatch (r : RE) (s : String) : Bool := r.matchList s.toList

/-- One-or-more, `x+` in the source patterns. -/
def RE.plus (r : RE) : RE := .cat r (.star r)

/-- The class `[a-zA-Z0-9_.+-]` of the canonical email pattern's local part. -/
def emailLocalChar (c : Char) : Bool :=
  c.isAlpha || c.isDigit || c == '_' || c == '.' || c == '+' || c == '-'

/-- The class `[a-zA-Z0-9-]` of the canonical email pattern's domain part. -/
def emailDomainChar (c : Char) : Bool := c.isAlpha || c.isDigit || c == '-'

/-- The class `[a-zA-Z0-9-.]` after the dot in the canonical email pattern. -/
def emailTailChar (c : Char) : Bool :=
  c.isAlpha || c.isDigit || c == '-' || c == '.'

/-- The canonical email pattern `^[a-zA-Z0-9_.+-]+@[a-zA-Z0-9-]+\.[a-zA-Z0-9-.]+$`
(registered under id `form_regex_email` by `parse_validate_attribute`). -/
def emailRegex : RE :=
  .cat (RE.plus (.cls emailLocalChar))
    (.cat (.cls (fun c => c == '@'))
      (.cat (RE.plus (.cls emailDomainChar))
        (.cat (.cls (fun c => c == '.')) (RE.plus (.cls emailTailChar)))))

/-! ### The validation rule model

`ValidateType` mirrors webforms_derive/src/validate.rs lines 14-23 and
`ValidateError` mirrors webforms/src/validate.rs lines 56-83. -/

inductive ValidateType where
  | StringMin : Nat → ValidateType
  | StringMax : Nat → ValidateType
  | ValueMin : Int → ValidateType
  | ValueMax : Int → ValidateType
  | Regex : String → ValidateType
  | Email : String → ValidateType
  | Phone : String → ValidateType
  | MatchField : String → ValidateType
deriving DecidableEq

inductive ValidateError where
  | InputTooShort : String → Nat → ValidateError
  | InputTooLong : String → Nat → ValidateError
  | TooSmall : String → Int → ValidateError
  | TooLarge : String → Int → ValidateError
  | InvalidCharacters : String → ValidateError
  | InvalidEmail : String → ValidateError
  | InvalidPhoneNumber : String → ValidateError
  | InvalidRegex : String → ValidateError
  | FieldMismatch : String → ValidateError
deriving DecidableEq

/-- The compiled regex registry: each `static ref id : Regex` produced from the
`regex_tokens` table, keyed by id. -/
abbrev Registry := List (String × RE)

def regLookup (reg : Registry) (id : String) : Option RE :=
  (reg.find? (fun p => p.1 == id)).map (fun p => p.2)

/-- The check that `write` (validators.rs lines 13-50) generates for one
`#[validate]` attribute on a string-typed field: a guarded push of one error.
`none` models an attribute on which no check compiles: the `ValueMin`/`ValueMax`
comparisons do not typecheck against a string, `Regex` with an id missing from
the registry references an undefined static, and `Email`/`Phone`/`MatchField`
hit the `panic!` arm of the match. -/
def strCheck (reg : Registry) (field : String) :
    ValidateType → Option (String → List ValidateError)
  | .StringMin min => some (fun s =>
      if s.utf8ByteSize < min then [.InputTooShort field min] else [])
  | .StringMax max => some (fun s =>
      if s.utf8ByteSize > max then [.InputTooLong field max] else [])
  | .Regex id => (regLookup reg id).map (fun r => fun s =>
      if !(r.isMatch s) then [.InvalidRegex field] else [])
  | _ => none

/-- The check `write` generates for one attribute on an integer-typed field;
`none` as in `strCheck`. -/
def intCheck (field : String) : ValidateType → Option (Int → List ValidateError)
  | .ValueMin min => some (fun n => if n < min then [.TooSmall field min] else [])
  | .ValueMax max => some (fun n => if n > max then [.TooLarge field max] else [])
  | _ => none

/-- The loop of `write` (validators.rs lines 12-51): one generated check per
attribute, in declaration order; `none` when any attribute fails to generate. -/
def genChecks {α : Type} (check : ValidateType → Option (α → List ValidateError)) :
    List ValidateType → Option (List (α → List ValidateError))
  | [] => some []
  | a :: rest =>
      match check a, genChecks check rest with
      | some c, some cs => some (c :: cs)
      | _, _ => none

/-- Running the generated statement stream: each check appends its errors to
`v` in order. -/
def runChecks {α : Type} (checks : List (α → List ValidateError)) (v : α) :
    List ValidateError :=
  (checks.map (fun c => c v)).flatten

/-- The validator generated for a non-optional string field. -/
def runStrField (reg : Registry) (field : String) (attrs : List ValidateType)
    (s : String) : Option (List ValidateError) :=
  (genChecks (strCheck reg field) attrs).map (fun cs => runChecks cs s)

/-- The validator generated for a non-optional integer field. -/
def runIntField (field : String) (attrs : List ValidateType) (n : Int) :
    Option (List ValidateError) :=
  (genChecks (intCheck field) attrs).map (fun cs => runChecks cs n)

/-- The checks `write` generates for the attributes of an *optional* string
field.  The stream placed inside the `Some(s)` arm still reads `self.#name`
(validators.rs lines 16, 23, 44), never the binding `s`; for an optional field
that expression has the `Option` type, so no attribute yields a compiling
check: `Option<String>` has no `len()`, `is_match` does not take an `Option`,
and the `ValueMin`/`ValueMax` comparisons against a numeric literal do not
apply to it either.  Every arm is therefore `none` (generation fails). -/
def optStrCheck (reg : Registry) (field : String) :
    ValidateType → Option (Option String → List ValidateError) :=
  fun _ => none

/-- As `optStrCheck`, for an optional integer field: the stream reads
`self.#name : Option<iN>`, e.g. `self.opt_number < 50`, which is ill-typed, so
no attribute yields a compiling check. -/
def optIntCheck (field : String) :
    ValidateType → Option (Option Int → List ValidateError) :=
  fun _ => none

/-- The validator `write` emits for an optional string field (validators.rs
lines 53-61): the stream is wrapped in `match #name { Some(s) => {#stream},
None => {} }`.  The embedding keeps that match shape; the stream's checks must
typecheck against what they read, `self.#name : Option<String>`, which
`optStrCheck` shows no attribute does.  (The bare scrutinee `#name` is itself
unbound inside `fn validate(&self)`, a second reason the generated code is
ill-formed, subsumed by the generation failure modelled here.) -/
def runOptStrField (reg : Registry) (field : String) (attrs : List ValidateType)
    (ov : Option String) : Option (List ValidateError) :=
  (genChecks (optStrCheck reg field) attrs).map (fun cs =>
    match ov with
    | some _ => runChecks cs ov
    | none => [])

/-- As `runOptStrField`, for an optional integer field. -/
def runOptIntField (field : String) (attrs : List ValidateType)
    (ov : Option Int) : Option (List ValidateError) :=
  (genChecks (optIntCheck field) attrs).map (fun cs =>
    match ov with
    | some _ => runChecks cs ov
    | none => [])

/-- `impl_validate_macro` (validate.rs lines 339-342): the collected error
vector becomes `Ok(())` when empty and `Err(v)` otherwise. -/
def validateResult (v : List ValidateError) : Except (List ValidateError) Unit :=
  match v with
  | [] => .ok ()
  | _ => .error v

/-- The contribution of a single rule to the generated error list. -/
def ruleErrors {α : Type} (check : ValidateType → Option (α → List ValidateError))
    (a : ValidateType) (v : α) : List ValidateError :=
  match check a with
  | some c => c v
  | none => []

/-! ### Facts about the generated validators -/

theorem genChecks_runChecks {α : Type}
    (check : ValidateType → Option (α → List ValidateError)) :
    ∀ (attrs : List ValidateType) (cs : List (α → List ValidateError)),
      genChecks check attrs = some cs →
      ∀ v, runChecks cs v = (attrs.map (fun a => ruleErrors check a v)).flatten := by
  intro attrs
  induction attrs with
  | nil =>
      intro cs h v
      simp only [genChecks, Option.some.injEq] at h
      subst h
      simp [runChecks]
  | cons a rest ih =>
      intro cs h v
      simp only [genChecks] at h
      rcases ha : check a with _ | c <;> rw [ha] at h
      · exact absurd h (by simp)
      rcases hr : genChecks check rest with _ | cs' <;> rw [hr] at h
      · exact absurd h (by simp)
      simp only [Option.some.injEq] at h
      subst h
      have ihv := ih cs' hr v
      simp only [runChecks] at ihv
      simp only [runChecks, List.map_cons, List.flatten_cons, ruleErrors, ha, ihv]

theorem validateResult_ok_iff (v : List ValidateError) :
    validateResult v = .ok () ↔ v = [] := by
  cases v <;> simp [validateResult]

theorem ruleErrors_length_le_one (reg : Registry) (field : String)
    (a : ValidateType) (s : String) :
    (ruleErrors (strCheck reg field) a s).length ≤ 1 := by
  cases a <;> simp only [ruleErrors, strCheck]
  case StringMin min => split <;> simp
  case StringMax max => split <;> simp
  case Regex id =>
      rcases h : regLookup reg id with _ | r <;> simp [h]
      split <;> simp
  all_goals simp

theorem ruleErrors_no_invalid_email (reg : Registry) (field : String)
    (a : ValidateType) (s : String) (f : String) :
    ValidateError.InvalidEmail f ∉ ruleErrors (strCheck reg field) a s := by
  cases a <;> simp only [ruleErrors, strCheck]
  case StringMin min => split <;> simp
  case StringMax max => split <;> simp
  case Regex id =>
      rcases h : regLookup reg id with _ | r <;> simp [h]
  all_goals simp

/-- C1: for a string field, the generated validator evaluates every rule in
declaration order, accumulating all failures: the error list is the in-order
concatenation of each rule's contribution, the result is `Ok(())` exactly when
no rule failed, and each rule contributes at most one entry, so the final list
has one entry per failing rule in rule-declaration order. -/
theorem validate_accumulates_all_failures (reg : Registry) (field : String)
    (attrs : List ValidateType) (s : String) (out : List ValidateError)
    (h : runStrField reg field attrs s = some out) :
    out = (attrs.map (fun a => ruleErrors (strCheck reg field) a s)).flatten ∧
    (validateResult out = .ok () ↔
      ∀ a ∈ attrs, ruleErrors (strCheck reg field) a s = []) ∧
    (∀ a ∈ attrs, (ruleErrors (strCheck reg field) a s).length ≤ 1) := by
  simp only [runStrField, Option.map_eq_some'] at h
  obtain ⟨cs, hcs, hout⟩ := h
  have hrun := genChecks_runChecks (strCheck reg field) attrs cs hcs s
  subst hout
  refine ⟨hrun, ?_, fun a _ => ruleErrors_length_le_one reg field a s⟩
  rw [validateResult_ok_iff, hrun, List.flatten_eq_nil_iff]
  constructor
  · intro hall a ha
    exact hall _ (List.mem_map_of_mem _ ha)
  · intro hall l hl
    obtain ⟨a, ha, rfl⟩ := List.mem_map.1 hl
    exact hall a ha

/-- C1 witness: a field with `MinLength(3)` and a pattern rule, on the
one-character value "a" failing both, yields exactly the two errors in rule
order; the accumulated list is the in-order concatenation of the per-rule
contributions. -/
theorem validate_accumulates_all_failures_witness :
    runStrField [("p", RE.cls (fun c => c == 'b'))] "f"
        [.StringMin 3, .Regex "p"] "a" =
      some [.InputTooShort "f" 3, .InvalidRegex "f"] ∧
    [ValidateError.InputTooShort "f" 3, ValidateError.InvalidRegex "f"] =
      (([ValidateType.StringMin 3, ValidateType.Regex "p"]).map
        (fun a => ruleErrors (strCheck [("p", RE.cls (fun c => c == 'b'))] "f") a "a")).flatten :=
  ⟨by decide,
    (validate_accumulates_all_failures [("p", RE.cls (fun c => c == 'b'))] "f"
      [.StringMin 3, .Regex "p"] "a"
      [.InputTooShort "f" 3, .InvalidRegex "f"] (by decide)).1⟩

/-- C2: the claim fails on the code: `write` cannot generate a compiling
validator for an optional field carrying any rule.  The stream inside the
`Some` arm reads `self.#name` — the `Option`-typed field itself, never the
unwrapped binding — so no per-attribute check typechecks (first two
conjuncts), and a generated optional validator exists only for an empty rule
list, where it reports nothing (middle conjuncts); in particular the crate's
own optional `age`-style scenario with `MinValue(18)` has no generated
validator even for an absent value (last conjunct).  The claim's behaviour
(absent value skips the rules, present value validated as non-optional) is
what the crate's tests demand and the code fails to produce. -/
theorem optional_field_codegen_ill_typed :
    (∀ (reg : Registry) (field : String) (a : ValidateType),
      optStrCheck reg field a = none) ∧
    (∀ (field : String) (a : ValidateType), optIntCheck field a = none) ∧
    (∀ (reg : Registry) (field : String) (attrs : List ValidateType)
        (ov : Option String) (out : List ValidateError),
      runOptStrField reg field attrs ov = some out → attrs = [] ∧ out = []) ∧
    (∀ (field : String) (attrs : List ValidateType) (ov : Option Int)
        (out : List ValidateError),
      runOptIntField field attrs ov = some out → attrs = [] ∧ out = []) ∧
    runOptIntField "age" [.ValueMin 18] none = none := by
  refine ⟨fun _ _ _ => rfl, fun _ _ => rfl, ?_, ?_, rfl⟩
  · intro reg field attrs ov out h
    cases attrs with
    | nil =>
        refine ⟨rfl, ?_⟩
        simp only [runOptStrField, genChecks, Option.map_some', Option.some.injEq] at h
        cases ov <;> simp_all [runChecks]
    | cons a rest =>
        exact absurd h (by simp [runOptStrField, genChecks, optStrCheck])
  · intro field attrs ov out h
    cases attrs with
    | nil =>
        refine ⟨rfl, ?_⟩
        simp only [runOptIntField, genChecks, Option.map_some', Option.some.injEq] at h
        cases ov <;> simp_all [runChecks]
    | cons a rest =>
        exact absurd h (by simp [runOptIntField, genChecks, optIntCheck])

/-- C2 witness: instantiating the generation-failure theorem at a concrete
rule-free optional field, the only shape for which a validator exists. -/
theorem optional_field_codegen_ill_typed_witness :
    ([] : List ValidateType) = [] ∧ ([] : List ValidateError) = [] :=
  optional_field_codegen_ill_typed.2.2.1 [] "opt_owned_string" [] none [] rfl

/-- C3: with `MinLength(n)` and `MaxLength(m)` (n ≤ m) on a string field, a
value shorter than n yields exactly the one too-short error carrying the field
name and n, a value longer than m yields exactly the one too-long error
carrying the field name and m, and a value whose byte length lies in the
inclusive range [n, m] yields no error. -/
theorem length_bounds_inclusive (reg : Registry) (field : String) (n m : Nat)
    (s : String) (hnm : n ≤ m) :
    (s.utf8ByteSize < n →
      runStrField reg field [.StringMin n, .StringMax m] s =
        some [.InputTooShort field n]) ∧
    (s.utf8ByteSize > m →
      runStrField reg field [.StringMin n, .StringMax m] s =
        some [.InputTooLong field m]) ∧
    (n ≤ s.utf8ByteSize → s.utf8ByteSize ≤ m →
      runStrField reg field [.StringMin n, .StringMax m] s = some []) := by
  refine ⟨?_, ?_, ?_⟩
  · intro h
    have h2 : ¬ (s.utf8ByteSize > m) := by omega
    simp [runStrField, genChecks, strCheck, runChecks, h, h2]
  · intro h
    have h2 : ¬ (s.utf8ByteSize < n) := by omega
    simp [runStrField, genChecks, strCheck, runChecks, h, h2]
  · intro h1 h2
    have h3 : ¬ (s.utf8ByteSize < n) := by omega
    have h4 : ¬ (s.utf8ByteSize > m) := by omega
    simp [runStrField, genChecks, strCheck, runChecks, h3, h4]

/-- C3 witness: the `username` field with `MinLength(3)`/`MaxLength(10)` yields
exactly `[InputTooShort 3]` on "a", exactly `[InputTooLong 10]` on an
11-character value, and `[]` on "mike". -/
theorem length_bounds_inclusive_witness :
    runStrField [] "username" [.StringMin 3, .StringMax 10] "a" =
      some [.InputTooShort "username" 3] ∧
    runStrField [] "username" [.StringMin 3, .StringMax 10] "aaaaaaaaaaa" =
      some [.InputTooLong "username" 10] ∧
    runStrField [] "username" [.StringMin 3, .StringMax 10] "mike" = some [] :=
  ⟨(length_bounds_inclusive [] "username" 3 10 "a" (by decide)).1 (by decide),
    (length_bounds_inclusive [] "username" 3 10 "aaaaaaaaaaa" (by decide)).2.1 (by decide),
    (length_bounds_inclusive [] "username" 3 10 "mike" (by decide)).2.2 (by decide) (by decide)⟩

/-- C4: the claim that the `Email` rule yields an `InvalidEmail` error fails on
the code.  The generator `write` has no arm for `ValidateType::Email` (it hits
the `panic!` catch-all, modelled as `none`), and no generated check ever pushes
`InvalidEmail`; routing the canonical email pattern through the only regex arm
(as `validate_email` does) yields `InvalidRegex` instead.  The canonical
pattern itself does reject "mike@test" and accept "mike@test.com". -/
theorem email_rule_never_yields_invalid_email :
    (∀ (reg : Registry) (field id : String), strCheck reg field (.Email id) = none) ∧
    (∀ (reg : Registry) (field : String) (attrs : List ValidateType) (s : String)
        (out : List ValidateError), runStrField reg field attrs s = some out →
        ∀ f, ValidateError.InvalidEmail f ∉ out) ∧
    (emailRegex.isMatch "mike@test" = false ∧
      emailRegex.isMatch "mike@test.com" = true) ∧
    (runStrField [("form_regex_email", emailRegex)] "email"
        [.Regex "form_regex_email"] "mike@test" = some [.InvalidRegex "email"] ∧
      runStrField [("form_regex_email", emailRegex)] "email"
        [.Regex "form_regex_email"] "mike@test.com" = some []) := by
  refine ⟨fun _ _ _ => rfl, ?_, ⟨by decide, by decide⟩, ⟨by decide, by decide⟩⟩
  intro reg field attrs s out h f
  simp only [runStrField, Option.map_eq_some'] at h
  obtain ⟨cs, hcs, hout⟩ := h
  have hrun := genChecks_runChecks (strCheck reg field) attrs cs hcs s
  subst hout
  rw [hrun]
  intro hmem
  obtain ⟨l, hl, hel⟩ := List.mem_flatten.1 hmem
  obtain ⟨a, _, rfl⟩ := List.mem_map.1 hl
  exact ruleErrors_no_invalid_email reg field a s f hel

/-- C4 witness: instantiating the no-InvalidEmail theorem at the concrete
email field and the failing input "mike@test". -/
theorem email_rule_never_yields_invalid_email_witness :
    ValidateError.InvalidEmail "email" ∉ [ValidateError.InvalidRegex "email"] :=
  email_rule_never_yields_invalid_email.2.1 [("form_regex_email", emailRegex)]
    "email" [.Regex "form_regex_email"] "mike@test"
    [.InvalidRegex "email"] (by decide) "email"

/-! ### The HTML attribute model

`HtmlAttribute` and its key-based equality mirror
webforms/src/html/html_attribute.rs; the attribute collection is Rust's
`HashSet<HtmlAttribute>`, embedded as a list holding the set's elements in
iteration order, unique modulo `attrEq`.  Rust's `HashSet::insert` leaves the
set unchanged when an element equal to the argument is present; `replace`
swaps the stored element for the argument. -/

inductive HtmlAttribute where
  | Single : String → HtmlAttribute
  | Pair : String → String → HtmlAttribute
deriving DecidableEq

/-- The `PartialEq` impl (html_attribute.rs lines 71-84): two `Single`s are
equal when their values match, two `Pair`s when their keys match. -/
def attrEq : HtmlAttribute → HtmlAttribute → Bool
  | .Single v1, .Single v2 => v1 == v2
  | .Pair n1 _, .Pair n2 _ => n1 == n2
  | _, _ => false

/-- `HtmlAttribute::merge` (html_attribute.rs lines 34-47): `Single` keeps the
first, `Pair` joins the two values with a space; mismatched kinds panic,
modelled as `none`. -/
def mergeAttr : HtmlAttribute → HtmlAttribute → Option HtmlAttribute
  | .Single v, .Single _ => some (.Single v)
  | .Pair attr av, .Pair _ bv => some (.Pair attr (av ++ " " ++ bv))
  | _, _ => none

/-- `HashSet::get`: the stored element equal (by `attrEq`) to the probe. -/
def setGet (l : List HtmlAttribute) (a : HtmlAttribute) : Option HtmlAttribute :=
  l.find? (fun b => attrEq b a)

/-- `HashSet::insert`: a no-op when an equal element is already present. -/
def setInsert (l : List HtmlAttribute) (a : HtmlAttribute) : List HtmlAttribute :=
  if l.any (fun b => attrEq b a) then l else l ++ [a]

/-- `HashSet::replace`: the equal element is removed and the argument stored. -/
def setReplace (l : List HtmlAttribute) (a : HtmlAttribute) : List HtmlAttribute :=
  (l.filter (fun b => !(attrEq b a))) ++ [a]

/-- html_field.rs lines 7-12. -/
structure HtmlFieldBuilder where
  tag : String
  name : Option String
  attrs : List HtmlAttribute
  replace : Bool
deriving DecidableEq

/-- html_field.rs lines 14-18. -/
structure HtmlField where
  tag : String
  name : Option String
  attrs : List HtmlAttribute
deriving DecidableEq

/-- `HtmlFieldBuilder::new` (html_field.rs lines 28-43): start in append mode,
seeding a `name` pair attribute (via `HashSet::replace`) when a name is given. -/
def HtmlFieldBuilder.new (tag : String) (name : Option String) : HtmlFieldBuilder :=
  match name with
  | some n => { tag := tag, name := some n, attrs := setReplace [] (.Pair "name" n), replace := false }
  | none => { tag := tag, name := none, attrs := [], replace := false }

/-- `add_to_attributes` (html_field.rs lines 79-88): in replace mode the
attribute replaces any equal entry; in append mode the entry equal to `a` is
merged with it and the merge result passed to `HashSet::insert`.  `none`
models the panic inside `merge` on mismatched kinds. -/
def addToAttributes (b : HtmlFieldBuilder) (a : HtmlAttribute) :
    Option HtmlFieldBuilder :=
  if b.replace then some { b with attrs := setReplace b.attrs a }
  else
    match setGet b.attrs a with
    | some x => (mergeAttr x a).map (fun m => { b with attrs := setInsert b.attrs m })
    | none => some { b with attrs := setInsert b.attrs a }

/-- `finish` (html_field.rs lines 92-98): the field keeps the tag and the
attribute set; the stored name is dropped. -/
def HtmlFieldBuilder.finish (b : HtmlFieldBuilder) : HtmlField :=
  { tag := b.tag, name := none, attrs := b.attrs }

/-- `replace()` (html_field.rs lines 102-105). -/
def HtmlFieldBuilder.replaceMode (b : HtmlFieldBuilder) : HtmlFieldBuilder :=
  { b with replace := true }

/-- `append()` (html_field.rs lines 109-112). -/
def HtmlFieldBuilder.appendMode (b : HtmlFieldBuilder) : HtmlFieldBuilder :=
  { b with replace := false }

/-- `value()` (html_field.rs lines 119-122): adds a `Single` attribute. -/
def HtmlFieldBuilder.value (b : HtmlFieldBuilder) (v : String) :
    Option HtmlFieldBuilder :=
  addToAttributes b (.Single v)

/-- `attr()` (html_field.rs lines 143-146): adds a `Pair` attribute. -/
def HtmlFieldBuilder.attr (b : HtmlFieldBuilder) (k v : String) :
    Option HtmlFieldBuilder :=
  addToAttributes b (.Pair k v)

/-- `required()` (html_field.rs lines 171-174): adds `Single "required"`. -/
def HtmlFieldBuilder.required (b : HtmlFieldBuilder) : Option HtmlFieldBuilder :=
  addToAttributes b (.Single "required")

/-- `optional()` (html_field.rs lines 177-180): its doc says it unsets the
required attribute, but its body is identical to `required()` and adds
`Single "required"`. -/
def HtmlFieldBuilder.optional (b : HtmlFieldBuilder) : Option HtmlFieldBuilder :=
  addToAttributes b (.Single "required")

/-- The `Display` impl for `HtmlAttribute` (html_attribute.rs lines 95-102). -/
def displayAttr : HtmlAttribute → String
  | .Single v => v
  | .Pair n v => n ++ "='" ++ v ++ "'"

/-- The `Display` impl for `HtmlField` (html_field.rs lines 183-193): the
literal text `<input`, a space and the display of each attribute in iteration
order, and a closing `>`. -/
def displayField (f : HtmlField) : String :=
  "<input" ++ String.join (f.attrs.map (fun a => " " ++ displayAttr a)) ++ ">"

/-- C5: the claim's append half fails on the code.  In append mode, inserting
a second `Pair` with the same key leaves the set with the FIRST value: the
space-joined merge result is handed to `HashSet::insert`, which does nothing
because an element equal to it (same key) is already present.  The replace
half behaves as claimed: the entry holds only the second value. -/
theorem append_merge_is_discarded :
    ((HtmlFieldBuilder.new "input" none).attr "class" "a").bind
        (fun b => b.attr "class" "b") =
      some { tag := "input", name := none, attrs := [.Pair "class" "a"],
             replace := false } ∧
    (((HtmlFieldBuilder.new "input" none).replaceMode).attr "class" "a").bind
        (fun b => b.attr "class" "b") =
      some { tag := "input", name := none, attrs := [.Pair "class" "b"],
             replace := true } :=
  ⟨by decide, by decide⟩

/-- C6: the claim fails on the code: `optional()` adds the `required` single
attribute (its body duplicates `required()`), so `b.required().optional()`
still contains `required`, and even `optional()` alone introduces it. -/
theorem optional_keeps_required_attribute :
    ((HtmlFieldBuilder.new "input" none).required).bind HtmlFieldBuilder.optional =
      some { tag := "input", name := none, attrs := [.Single "required"],
             replace := false } ∧
    (HtmlFieldBuilder.new "input" none).optional =
      some { tag := "input", name := none, attrs := [.Single "required"],
             replace := false } :=
  ⟨by decide, by decide⟩

/-- C7 counterexample: the `Display` impl writes the literal `<input`, not the
stored tag: a field whose tag is `select` renders as `<input>`. -/
theorem display_field_tag_counterexample :
    displayField { tag := "select", name := none, attrs := [] } = "<input>" ∧
    ("<select".toList.isPrefixOf "<input>".toList) = false :=
  ⟨rfl, by decide⟩

/-- C7 amended: rendering a finished field emits the literal tag `input`
regardless of the tag stored in the field, followed by each attribute of the
set in iteration order as `key='value'` for a `Pair` and `value` for a
`Single`, each preceded by a space, closed as a single self-contained tag. -/
theorem display_field_emits_input_literal (b : HtmlFieldBuilder) (f : HtmlField)
    (h : f.attrs = b.attrs) :
    displayField f =
      "<input" ++ String.join (b.attrs.map (fun a => " " ++ displayAttr a)) ++ ">" ∧
    displayField f = displayField b.finish := by
  unfold displayField HtmlFieldBuilder.finish
  rw [h]
  exact ⟨rfl, rfl⟩

/-- C7 witness: a field carrying tag `select` renders exactly as the finished
form of a builder carrying tag `form` with the same single attribute. -/
theorem display_field_emits_input_literal_witness :
    displayField { tag := "select", name := none, attrs := [.Single "required"] } =
      "<input" ++ String.join ([HtmlAttribute.Single "required"].map
        (fun a => " " ++ displayAttr a)) ++ ">" ∧
    displayField { tag := "select", name := none, attrs := [.Single "required"] } =
      displayField (HtmlFieldBuilder.finish
        { tag := "form", name := none, attrs := [.Single "required"], replace := false }) :=
  display_field_emits_input_literal
    { tag := "form", name := none, attrs := [.Single "required"], replace := false }
    { tag := "select", name := none, attrs := [.Single "required"] } rfl

/-- C8 counterexample: byte-identical output is not guaranteed across runs.
The attribute collection is a `HashSet` whose iteration order depends on the
process's random hash seed, so the same constructed set may be enumerated in
different orders in different runs; two enumerations of the same two-element
set render different bytes. -/
theorem render_not_canonical_across_orders :
    ([HtmlAttribute.Single "alpha", HtmlAttribute.Single "beta"].Perm
      [HtmlAttribute.Single "beta", HtmlAttribute.Single "alpha"]) ∧
    displayField
        { tag := "input", name := none, attrs := [.Single "alpha", .Single "beta"] } ≠
      displayField
        { tag := "input", name := none, attrs := [.Single "beta", .Single "alpha"] } :=
  ⟨List.Perm.swap _ _ _, by decide⟩

/-- C8 amended: rendering is deterministic for a fixed enumeration of the
attribute set: two fields holding the same attribute list render byte-identical
output, whatever their tags and names; only the enumeration order of the
underlying `HashSet` (seed-dependent across runs) can change the bytes. -/
theorem render_deterministic_for_fixed_enumeration (f g : HtmlField)
    (h : f.attrs = g.attrs) : displayField f = displayField g := by
  unfold displayField
  rw [h]

/-- C8 witness: two fields sharing one attribute list render identically. -/
theorem render_deterministic_for_fixed_enumeration_witness :
    displayField { tag := "input", name := none, attrs := [.Single "required"] } =
      displayField { tag := "form", name := some "x", attrs := [.Single "required"] } :=
  render_deterministic_for_fixed_enumeration
    { tag := "input", name := none, attrs := [.Single "required"] }
    { tag := "form", name := some "x", attrs := [.Single "required"] } rfl

/-! ### The regex-id registry

`regex_tokens` (validate.rs line 46) is a map from id to pattern string,
embedded as an association list.  Two code paths register into it:
`parse_validate_regex_attr` (validate.rs lines 170-186), which panics on any
already-present id, and the `email`/`phone` arms of `parse_validate_attribute`
(validate.rs lines 232-249), which insert only when the id is absent and never
fail. -/

abbrev RegexTokens := List (String × String)

/-- `HashMap::contains_key` on the `regex_tokens` table. -/
def containsKey (m : RegexTokens) (id : String) : Bool :=
  m.any (fun p => p.1 == id)

/-- The `#[validate_regex]` name-value arm (validate.rs lines 173-185):
insert when the id is absent, panic (`none`) when it is present, whatever the
stored pattern. -/
def registerExplicit (m : RegexTokens) (id pat : String) : Option RegexTokens :=
  if containsKey m id then none else some (m ++ [(id, pat)])

/-- The `email`/`phone` arms of `parse_validate_attribute` (validate.rs lines
232-249): insert only when the id is absent; never an error. -/
def registerCanonical (m : RegexTokens) (id pat : String) : RegexTokens :=
  if containsKey m id then m else m ++ [(id, pat)]

/-- The canonical email pattern string of validate.rs line 234. -/
def emailPatternStr : String := "^[a-zA-Z0-9_.+-]+@[a-zA-Z0-9-]+\\.[a-zA-Z0-9-.]+$"

/-- C9 counterexample: re-registering the id `form_regex_email` with the
identical canonical pattern through `#[validate_regex]` is an error (`none`
models the panic), although the claim says the identical well-known pattern is
idempotent; and registering the canonical pattern over an id already bound to
a *different* pattern through the email path raises no error at all, silently
keeping the old pattern, although the claim says a differing pattern is an
error. -/
theorem duplicate_regex_policy_counterexample :
    registerExplicit [("form_regex_email", emailPatternStr)] "form_regex_email"
        emailPatternStr = none ∧
    registerCanonical [("form_regex_email", "^other$")] "form_regex_email"
        emailPatternStr = [("form_regex_email", "^other$")] :=
  ⟨by decide, by decide⟩

/-- C9 amended: duplicate handling depends on the registration path, never on
pattern equality.  The explicit `#[validate_regex]` path errors exactly when
the id is already present (even with an identical pattern); the built-in
email/phone path never errors: with the id present it leaves the table
unchanged (even when the stored pattern differs), and repeating it is
idempotent. -/
theorem duplicate_regex_policy (m : RegexTokens) (id pat : String) :
    (registerExplicit m id pat = none ↔ containsKey m id = true) ∧
    (containsKey m id = true → registerCanonical m id pat = m) ∧
    (registerCanonical (registerCanonical m id pat) id pat =
      registerCanonical m id pat) := by
  refine ⟨?_, ?_, ?_⟩
  · unfold registerExplicit
    split <;> simp_all
  · intro h
    simp [registerCanonical, h]
  · cases h : containsKey m id with
    | true => simp [registerCanonical, h]
    | false =>
        have h2 : containsKey (m ++ [(id, pat)]) id = true := by
          simp [containsKey, List.any_append]
        simp [registerCanonical, h, h2]

/-- C9 witness: with the id already present, the email/phone path leaves the
table unchanged. -/
theorem duplicate_regex_policy_witness :
    registerCanonical [("user_re", "^mark$")] "user_re" "^other$" =
      [("user_re", "^mark$")] :=
  (duplicate_regex_policy [("user_re", "^mark$")] "user_re" "^other$").2.1 (by decide)

/-! ### The form builder

`HtmlFormBuilder` (html_form_builder.rs lines 8-12) keyed by field name; its
`HashMap` of fields is embedded as an association list with unique keys. -/

structure HtmlFormBuilder where
  fields : List (String × HtmlFieldBuilder)
  validated : Bool
deriving DecidableEq

/-- `add_field` (html_form_builder.rs lines 67-69): `HashMap::insert`,
replacing any entry with the same key. -/
def HtmlFormBuilder.addField (f : HtmlFormBuilder) (name : String)
    (b : HtmlFieldBuilder) : HtmlFormBuilder :=
  { f with fields := (f.fields.filter (fun p => !(p.1 == name))) ++ [(name, b)] }

/-- `builder` (html_form_builder.rs lines 31-36): look the name up and clone
the stored field builder; `none` models the panic on a missing name. -/
def HtmlFormBuilder.builder (f : HtmlFormBuilder) (s : String) :
    Option HtmlFieldBuilder :=
  (f.fields.find? (fun p => p.1 == s)).map (fun p => p.2)

/-- C10: `builder(s)` panics (`none`) exactly when no field named `s` is
present; otherwise it returns a stored field builder for `s`.  A field just
added under `name` is returned by `builder(name)`, and adding it leaves
lookups of every other name unchanged; the builder itself takes the form by
shared reference, so the field map (and hence any later render) is unaffected
by the call. -/
theorem form_builder_lookup (f : HtmlFormBuilder) (s : String) :
    (f.builder s = none ↔ ∀ b, (s, b) ∉ f.fields) ∧
    (∀ b, f.builder s = some b → (s, b) ∈ f.fields) ∧
    (∀ (name : String) (b : HtmlFieldBuilder),
      (f.addField name b).builder name = some b ∧
      (name ≠ s → (f.addField name b).builder s = f.builder s)) := by
  refine ⟨?_, ?_, ?_⟩
  · rw [HtmlFormBuilder.builder, Option.map_eq_none', List.find?_eq_none]
    constructor
    · intro h b hmem
      exact absurd (by simp) (h (s, b) hmem)
    · intro h x hx hpx
      have hx1 : x.1 = s := by simpa using hpx
      have : (s, x.2) ∈ f.fields := by
        rw [← hx1]
        simpa using hx
      exact h x.2 this
  · intro b h
    rw [HtmlFormBuilder.builder, Option.map_eq_some'] at h
    obtain ⟨x, hfind, hx2⟩ := h
    have hx1 : x.1 = s := by simpa using List.find?_some hfind
    have hmem := List.mem_of_find?_eq_some hfind
    have : (x.1, x.2) = x := rfl
    rw [← hx2, ← hx1]
    rw [this]
    exact hmem
  · intro name b
    constructor
    · rw [HtmlFormBuilder.builder]
      have hnone : (f.fields.filter (fun p => !(p.1 == name))).find?
          (fun p => p.1 == name) = none := by
        rw [List.find?_eq_none]
        intro x hx
        have := (List.mem_filter.1 hx).2
        simp at this
        simp [this]
      simp [HtmlFormBuilder.addField, List.find?_append, hnone]
    · intro hneq
      rw [HtmlFormBuilder.builder, HtmlFormBuilder.builder]
      have hlast : ([((name, b) : String × HtmlFieldBuilder)].find?
          (fun p => p.1 == s)) = none := by
        simp [List.find?_eq_none]
        exact hneq
      have hfilter : (f.fields.filter (fun p => !(p.1 == name))).find?
          (fun p => p.1 == s) = f.fields.find? (fun p => p.1 == s) := by
        rw [List.find?_filter]
        congr 1
        funext x
        cases hx : (x.1 == s) with
        | true =>
            have : x.1 = s := by simpa using hx
            have hxname : (x.1 == name) = false := by
              simp [this]
              exact fun hc => hneq hc.symm
            simp [hx, hxname]
        | false => simp [hx]
      simp [HtmlFormBuilder.addField, List.find?_append, hlast, hfilter]

/-- C10 witness: on a concrete form holding one `username` field, `builder`
returns the stored field builder for `username` and `none` (the panic) for a
missing name. -/
theorem form_builder_lookup_witness :
    (HtmlFormBuilder.builder
        { fields := [("username", HtmlFieldBuilder.new "input" (some "username"))],
          validated := false } "missing" = none ↔
      ∀ b, ("missing", b) ∉
        [("username", HtmlFieldBuilder.new "input" (some "username"))]) ∧
    (HtmlFormBuilder.addField
        { fields := [], validated := false } "username"
        (HtmlFieldBuilder.new "input" (some "username"))).builder "username" =
      some (HtmlFieldBuilder.new "input" (some "username")) :=
  ⟨(form_builder_lookup
      { fields := [("username", HtmlFieldBuilder.new "input" (some "username"))],
        validated := false } "missing").1,
    ((form_builder_lookup { fields := [], validated := false } "username").2.2
      "username" (HtmlFieldBuilder.new "input" (some "username"))).1⟩

end Webforms
